import Mathlib

/-!
Verification of the Book Catalog Service (`src/index.js`), a single-file
Express CRUD application over one in-memory list of book records.

Shallow embedding:

* A JavaScript object (a book record, or a parsed JSON request body) is an
  association list of string keys and primitive values (`Obj`).  Property
  access is first-match lookup, an absent property reads as `undefined`.
  Object-spread `{...a, ...b}` is `spread a b`: entries of `a` in order with
  values overridden by `b` where the key occurs in `b`, followed by the
  entries of `b` whose keys do not occur in `a`.  Nested objects and arrays
  as property values are outside the model (no claim needs them).
* JavaScript truthiness on the primitive values is `truthy`.
* `parseInt` (as applied to record ids) is `jsParseInt`, returning `none`
  for `NaN`: leading whitespace skipped, optional sign, longest leading run
  of decimal digits.  The `0x` auto-radix and double-precision rounding of
  very long digit strings are not modelled; no claim involves them.
* `Number.prototype.toString` on integers is `intToStr` (plain decimal).
* Each route handler is a function from the collection (and the request
  parameters/body) to the new collection and the JSON response envelope.
  `books = books.filter(...)` followed by branching on the length is kept
  as in the source: the delete handler installs the filtered list in both
  branches.
* A client session is a list of `Request`s run by `runRequests` from the
  seed state `seedBooks`.
-/

/-- A primitive JavaScript value as it can occur in a record field or a
parsed JSON body: `undefined`, `null`, a boolean, an integer number or a
string. -/
inductive Value where
  | undef : Value
  | null : Value
  | bool : Bool → Value
  | num : Int → Value
  | str : String → Value
deriving Repr, DecidableEq

/-- Decimal digits of `n`, most significant first, computed with explicit
fuel so that the definition is structural (the fuel must exceed `n`). -/
def natToDigitsAux : Nat → Nat → List Char
  | _, 0 => []
  | n, fuel + 1 =>
    if n < 10 then [Nat.digitChar n]
    else natToDigitsAux (n / 10) fuel ++ [Nat.digitChar (n % 10)]

/-- Decimal string of a natural number, as JavaScript prints one. -/
def natToStr (n : Nat) : String :=
  ⟨natToDigitsAux n (n + 1)⟩

/-- `Number.prototype.toString` for integers: plain decimal with a leading
minus sign on negatives. -/
def intToStr : Int → String
  | Int.ofNat n => natToStr n
  | Int.negSucc n => "-" ++ natToStr (n + 1)

/-- String coercion of a primitive value, as JavaScript performs before
`parseInt` (an absent property reads as `undefined`, which coerces to the
string `"undefined"`). -/
def valueToString : Value → String
  | Value.undef => "undefined"
  | Value.null => "null"
  | Value.bool b => if b then "true" else "false"
  | Value.num n => intToStr n
  | Value.str s => s

/-- JavaScript truthiness of a primitive value: `undefined`, `null`,
`false`, `0` and `""` are falsy, everything else is truthy. -/
def truthy : Value → Bool
  | Value.undef => false
  | Value.null => false
  | Value.bool b => b
  | Value.num n => decide (n ≠ 0)
  | Value.str s => !s.isEmpty

/-- Whitespace skipped by `parseInt` (the common whitespace characters). -/
def jsWhitespace (c : Char) : Bool :=
  decide (c = ' ') || decide (c = '\t') || decide (c = '\n') || decide (c = '\r')

/-- Decimal digit character test. -/
def isDigitChar (c : Char) : Bool :=
  decide ('0' ≤ c) && decide (c ≤ '9')

/-- Numeric value of a digit character. -/
def charVal (c : Char) : Nat :=
  c.toNat - '0'.toNat

/-- Value of a digit string read most-significant-first. -/
def digitsVal (cs : List Char) : Nat :=
  cs.foldl (fun a c => a * 10 + charVal c) 0

/-- Longest leading run of decimal digits, `none` when there is none
(`parseInt` then yields `NaN`). -/
def parseDigits (cs : List Char) : Option Nat :=
  let ds := cs.takeWhile isDigitChar
  if ds.isEmpty then none else some (digitsVal ds)

/-- Sign handling of `parseInt` after whitespace is skipped. -/
def parseSigned : List Char → Option Int
  | [] => none
  | c :: rest =>
    if c = '-' then (parseDigits rest).map (fun n => -(n : Int))
    else if c = '+' then (parseDigits rest).map (fun n => (n : Int))
    else (parseDigits (c :: rest)).map (fun n => (n : Int))

/-- `parseInt` on a string (radix 10), `none` standing for `NaN`. -/
def jsParseInt (s : String) : Option Int :=
  parseSigned (s.toList.dropWhile jsWhitespace)

/-- A JavaScript object: an association list of string keys and primitive
values.  Property access is first-match lookup. -/
structure Obj where
  entries : List (String × Value)
deriving Repr, DecidableEq

/-- First-match lookup of a key; an absent key reads as `undefined`. -/
def lookupKey (k : String) : List (String × Value) → Value
  | [] => Value.undef
  | p :: ps => if p.1 = k then p.2 else lookupKey k ps

/-- Property access `o.k`. -/
def Obj.get (o : Obj) (k : String) : Value :=
  lookupKey k o.entries

/-- Whether a key occurs in an entry list. -/
def hasKeyL (k : String) : List (String × Value) → Bool
  | [] => false
  | p :: ps => decide (p.1 = k) || hasKeyL k ps

/-- Whether the object has the property `k` (with any value). -/
def Obj.hasKey (o : Obj) (k : String) : Bool :=
  hasKeyL k o.entries

/-- Object spread `{...a, ...b}`: the entries of `a` in order, with the
value replaced by `b`'s whenever the key also occurs in `b`, followed by
the entries of `b` whose keys do not occur in `a`. -/
def spread (a b : Obj) : Obj :=
  ⟨a.entries.map (fun p => if b.hasKey p.1 then (p.1, b.get p.1) else p) ++
    b.entries.filter (fun p => !a.hasKey p.1)⟩

/-- Payload of a response: a single book or the whole collection. -/
inductive RData where
  | one : Obj → RData
  | many : List Obj → RData
deriving Repr, DecidableEq

/-- The uniform JSON response envelope together with the HTTP status code:
`res.status(code).json({status, message, data?})`. -/
structure Response where
  code : Nat
  status : String
  message : String
  data : Option RData
deriving Repr, DecidableEq

/-- A book record with exactly the four base fields, in the key order the
source uses. -/
def mkBook (id title author : String) (year : Int) : Obj :=
  ⟨[("id", Value.str id), ("title", Value.str title),
    ("author", Value.str author), ("year", Value.num year)]⟩

/-- The two seed records the collection starts with. -/
def seedBooks : List Obj :=
  [mkBook "1" "The Lord of the Rings" "J.R.R. Tolkien" 1954,
   mkBook "2" "Pride and Prejudice" "Jane Austen" 1813]

/-- `findBookById`: `books.find(book => book.id === id)`. -/
def findBookById (books : List Obj) (id : String) : Option Obj :=
  books.find? (fun b => decide (b.get "id" = Value.str id))

/-- `books.findIndex(book => book.id === id)`, with `none` for `-1`. -/
def findIndexOpt (p : Obj → Bool) : List Obj → Option Nat
  | [] => none
  | b :: bs => if p b then some 0 else Option.map (· + 1) (findIndexOpt p bs)

/-- `generateNewId()`: `"1"` on an empty collection, otherwise
`(parseInt(books[books.length - 1].id) + 1).toString()` (where `NaN`
propagates to the string `"NaN"`). -/
def generateNewId (books : List Obj) : String :=
  match books.getLast? with
  | none => "1"
  | some b =>
    match jsParseInt (valueToString (b.get "id")) with
    | none => "NaN"
    | some n => intToStr (n + 1)

/-- Handler of `GET /books`. -/
def listBooks (books : List Obj) : List Obj × Response :=
  if books.length > 0 then
    (books, ⟨200, "success", "Successfully retrieved all books", some (RData.many books)⟩)
  else
    (books, ⟨404, "fail", "No books found", none⟩)

/-- Handler of `GET /books/:id`. -/
def getBook (books : List Obj) (id : String) : List Obj × Response :=
  match findBookById books id with
  | some b =>
    (books, ⟨200, "success", s!"Successfully retrieved book with id {id}", some (RData.one b)⟩)
  | none =>
    (books, ⟨404, "fail", s!"Book with id {id} not found", none⟩)

/-- Handler of `POST /books`: presence check on the three destructured
fields, then append `{id: generateNewId(), title, author, year}`. -/
def createBook (books : List Obj) (body : Obj) : List Obj × Response :=
  if !truthy (body.get "title") || !truthy (body.get "author") || !truthy (body.get "year") then
    (books, ⟨400, "fail", "Title, author, and year are required", none⟩)
  else
    (books ++ [⟨[("id", Value.str (generateNewId books)), ("title", body.get "title"),
        ("author", body.get "author"), ("year", body.get "year")]⟩],
     ⟨201, "success", "Book added successfully",
      some (RData.one ⟨[("id", Value.str (generateNewId books)), ("title", body.get "title"),
        ("author", body.get "author"), ("year", body.get "year")]⟩)⟩)

/-- Handler of `PUT /books/:id`: locate by id, reject if any of the three
destructured fields is falsy, else
`books[i] = { ...books[i], title, author, year }`. -/
def putBook (books : List Obj) (id : String) (body : Obj) : List Obj × Response :=
  match findIndexOpt (fun b => decide (b.get "id" = Value.str id)) books with
  | some i =>
    if !truthy (body.get "title") || !truthy (body.get "author") || !truthy (body.get "year") then
      (books, ⟨400, "fail", "Title, author, and year are required for a complete update", none⟩)
    else
      (books.set i (spread ((books[i]?).getD ⟨[]⟩)
          ⟨[("title", body.get "title"), ("author", body.get "author"), ("year", body.get "year")]⟩),
       ⟨200, "success", s!"Book with id {id} updated successfully (full update)",
        some (RData.one (spread ((books[i]?).getD ⟨[]⟩)
          ⟨[("title", body.get "title"), ("author", body.get "author"), ("year", body.get "year")]⟩))⟩)
  | none => (books, ⟨404, "fail", s!"Book with id {id} not found", none⟩)

/-- Handler of `PATCH /books/:id`: locate by id, then
`books[i] = { ...books[i], ...updates }`. -/
def patchBook (books : List Obj) (id : String) (body : Obj) : List Obj × Response :=
  match findIndexOpt (fun b => decide (b.get "id" = Value.str id)) books with
  | some i =>
    (books.set i (spread ((books[i]?).getD ⟨[]⟩) body),
     ⟨200, "success", s!"Book with id {id} updated successfully (partial update)",
      some (RData.one (spread ((books[i]?).getD ⟨[]⟩) body))⟩)
  | none => (books, ⟨404, "fail", s!"Book with id {id} not found", none⟩)

/-- Handler of `DELETE /books/:id`: reassign `books` to the filtered list,
then report success exactly when the length decreased. -/
def deleteBook (books : List Obj) (id : String) : List Obj × Response :=
  let remaining := books.filter (fun b => !decide (b.get "id" = Value.str id))
  if remaining.length < books.length then
    (remaining, ⟨200, "success", s!"Book with id {id} deleted successfully", none⟩)
  else
    (remaining, ⟨404, "fail", s!"Book with id {id} not found", none⟩)

/-- One request to any of the six routes. -/
inductive Request where
  | listAll : Request
  | getOne : String → Request
  | create : Obj → Request
  | putOne : String → Obj → Request
  | patchOne : String → Obj → Request
  | deleteOne : String → Request
deriving Repr, DecidableEq

/-- Dispatch of one request to its handler. -/
def applyRequest (books : List Obj) : Request → List Obj × Response
  | Request.listAll => listBooks books
  | Request.getOne id => getBook books id
  | Request.create body => createBook books body
  | Request.putOne id body => putBook books id body
  | Request.patchOne id body => patchBook books id body
  | Request.deleteOne id => deleteBook books id

/-- The collection after serving a sequence of requests. -/
def runRequests (books : List Obj) : List Request → List Obj
  | [] => books
  | r :: rs => runRequests (applyRequest books r).1 rs

/-- A request never overwrites an `id` field: every request qualifies
except a partial update whose body carries an `"id"` key. -/
def idSafe : Request → Bool
  | Request.patchOne _ body => !body.hasKey "id"
  | _ => true

/-- The id of a record. -/
def idOf (b : Obj) : Value :=
  b.get "id"

/-- The id value corresponding to the natural number `n`. -/
def idVal (n : Nat) : Value :=
  Value.str (natToStr n)

/-- Well-formed id states: the ids of the collection are, in order, the
decimal strings of a strictly increasing list of natural numbers. -/
def GoodIds (bs : List Obj) : Prop :=
  ∃ ns : List Nat, bs.map idOf = ns.map idVal ∧ ns.Pairwise (· < ·)

/-! ### Arithmetic facts about the decimal printer and `parseInt` -/

lemma digitChar_isDigit : ∀ d < 10, isDigitChar (Nat.digitChar d) = true := by decide

lemma digitChar_val : ∀ d < 10, charVal (Nat.digitChar d) = d := by decide

lemma digitsVal_singleton (c : Char) : digitsVal [c] = charVal c := by
  simp [digitsVal, charVal]

lemma digitsVal_snoc (l : List Char) (c : Char) :
    digitsVal (l ++ [c]) = digitsVal l * 10 + charVal c := by
  simp [digitsVal, List.foldl_append]

lemma natToDigitsAux_ne_nil : ∀ fuel n, n < fuel → natToDigitsAux n fuel ≠ [] := by
  intro fuel
  induction fuel with
  | zero => intro n h; omega
  | succ f ih =>
    intro n _
    unfold natToDigitsAux
    split
    · simp
    · simp

lemma natToDigitsAux_digits :
    ∀ fuel n, n < fuel → ∀ c ∈ natToDigitsAux n fuel, isDigitChar c = true := by
  intro fuel
  induction fuel with
  | zero => intro n h; omega
  | succ f ih =>
    intro n hn c hc
    unfold natToDigitsAux at hc
    split at hc
    · next h10 =>
      rw [List.mem_singleton] at hc
      subst hc
      exact digitChar_isDigit n h10
    · next h10 =>
      rw [List.mem_append] at hc
      rcases hc with hc | hc
      · exact ih (n / 10) (by omega) c hc
      · rw [List.mem_singleton] at hc
        subst hc
        exact digitChar_isDigit (n % 10) (by omega)

lemma natToDigitsAux_val :
    ∀ fuel n, n < fuel → digitsVal (natToDigitsAux n fuel) = n := by
  intro fuel
  induction fuel with
  | zero => intro n h; omega
  | succ f ih =>
    intro n hn
    unfold natToDigitsAux
    split
    · next h10 => rw [digitsVal_singleton, digitChar_val n h10]
    · next h10 =>
      rw [digitsVal_snoc, ih (n / 10) (by omega), digitChar_val (n % 10) (by omega)]
      omega

lemma isDigitChar_not_ws (c : Char) (h : isDigitChar c = true) : jsWhitespace c = false := by
  cases hw : jsWhitespace c with
  | false => rfl
  | true =>
    exfalso
    simp only [jsWhitespace, Bool.or_eq_true, decide_eq_true_eq] at hw
    rcases hw with ((h1 | h1) | h1) | h1 <;> subst h1 <;> exact absurd h (by decide)

lemma isDigitChar_ne_minus (c : Char) (h : isDigitChar c = true) : c ≠ '-' := by
  intro he; subst he; exact absurd h (by decide)

lemma isDigitChar_ne_plus (c : Char) (h : isDigitChar c = true) : c ≠ '+' := by
  intro he; subst he; exact absurd h (by decide)

lemma takeWhile_all {α : Type} (p : α → Bool) :
    ∀ l : List α, (∀ a ∈ l, p a = true) → l.takeWhile p = l := by
  intro l h
  exact List.takeWhile_eq_self_iff.mpr h

lemma jsParseInt_natToStr (n : Nat) : jsParseInt (natToStr n) = some (n : Int) := by
  have hne := natToDigitsAux_ne_nil (n + 1) n (Nat.lt_succ_self n)
  have hdig := natToDigitsAux_digits (n + 1) n (Nat.lt_succ_self n)
  have hval := natToDigitsAux_val (n + 1) n (Nat.lt_succ_self n)
  rw [jsParseInt, natToStr]
  show parseSigned (List.dropWhile jsWhitespace (natToDigitsAux n (n + 1))) = some (n : Int)
  cases hcs : natToDigitsAux n (n + 1) with
  | nil => exact absurd hcs hne
  | cons c cs =>
    rw [hcs] at hdig hval
    have hc : isDigitChar c = true := hdig c (List.mem_cons_self c cs)
    rw [List.dropWhile_cons, isDigitChar_not_ws c hc]
    simp only [Bool.false_eq_true, if_false]
    rw [parseSigned, if_neg (isDigitChar_ne_minus c hc), if_neg (isDigitChar_ne_plus c hc)]
    have htw : List.takeWhile isDigitChar (c :: cs) = c :: cs := takeWhile_all isDigitChar _ hdig
    simp [parseDigits, htw, hval]

lemma natToStr_inj : Function.Injective natToStr := by
  intro a b h
  have ha := jsParseInt_natToStr a
  rw [h, jsParseInt_natToStr b] at ha
  have hb := Option.some.inj ha
  exact_mod_cast hb.symm

lemma intToStr_coe_succ (m : Nat) : intToStr ((m : Int) + 1) = natToStr (m + 1) := by
  have h : ((m : Int) + 1) = ((m + 1 : Nat) : Int) := by push_cast; ring
  rw [h]
  rfl

lemma idVal_inj : Function.Injective idVal := by
  intro a b h
  exact natToStr_inj (Value.str.inj h)

/-! ### Association-list and object-spread lemmas -/

lemma lookupKey_of_not_hasKey (k : String) :
    ∀ l : List (String × Value), hasKeyL k l = false → lookupKey k l = Value.undef := by
  intro l
  induction l with
  | nil => intro _; rfl
  | cons p ps ih =>
    intro h
    rw [hasKeyL, Bool.or_eq_false_iff, decide_eq_false_iff_not] at h
    rw [lookupKey, if_neg h.1]
    exact ih h.2

lemma override_key (b : Obj) (p : String × Value) :
    (if b.hasKey p.1 = true then (p.1, b.get p.1) else p).1 = p.1 := by
  split <;> rfl

lemma lookupKey_map_override (b : Obj) (k : String) (hb : b.hasKey k = false) :
    ∀ l : List (String × Value),
      lookupKey k (l.map (fun p => if b.hasKey p.1 = true then (p.1, b.get p.1) else p)) =
        lookupKey k l := by
  intro l
  induction l with
  | nil => rfl
  | cons p ps ih =>
    rw [List.map_cons, lookupKey, lookupKey, override_key]
    by_cases hk : p.1 = k
    · rw [if_pos hk, if_pos hk]
      have hbp : b.hasKey p.1 = false := by rw [hk]; exact hb
      rw [hbp]
      simp only [Bool.false_eq_true, if_false]
    · rw [if_neg hk, if_neg hk, ih]

lemma hasKeyL_map_override (b : Obj) (k : String) :
    ∀ l : List (String × Value),
      hasKeyL k (l.map (fun p => if b.hasKey p.1 = true then (p.1, b.get p.1) else p)) =
        hasKeyL k l := by
  intro l
  induction l with
  | nil => rfl
  | cons p ps ih => rw [List.map_cons, hasKeyL, hasKeyL, override_key, ih]

lemma lookupKey_append (k : String) (l₁ l₂ : List (String × Value)) :
    lookupKey k (l₁ ++ l₂) =
      if hasKeyL k l₁ = true then lookupKey k l₁ else lookupKey k l₂ := by
  induction l₁ with
  | nil => simp [hasKeyL]
  | cons p ps ih =>
    by_cases hk : p.1 = k
    · simp [lookupKey, hasKeyL, hk]
    · simp [lookupKey, hasKeyL, hk, ih]

lemma hasKeyL_filter_false (k : String) (q : String × Value → Bool)
    (l : List (String × Value)) (h : hasKeyL k l = false) :
    hasKeyL k (l.filter q) = false := by
  induction l with
  | nil => rfl
  | cons p ps ih =>
    rw [hasKeyL, Bool.or_eq_false_iff] at h
    rw [List.filter_cons]
    split
    · rw [hasKeyL, h.1, Bool.false_or]
      exact ih h.2
    · exact ih h.2

lemma spread_get_of_not_hasKey (a b : Obj) (k : String) (h : b.hasKey k = false) :
    (spread a b).get k = a.get k := by
  show lookupKey k (spread a b).entries = lookupKey k a.entries
  rw [spread]
  show lookupKey k (_ ++ _) = _
  rw [lookupKey_append, hasKeyL_map_override]
  by_cases ha : hasKeyL k a.entries = true
  · rw [if_pos ha, lookupKey_map_override b k h]
  · rw [if_neg ha,
      lookupKey_of_not_hasKey k _ (hasKeyL_filter_false k _ b.entries h),
      lookupKey_of_not_hasKey k a.entries (Bool.eq_false_iff.mpr ha)]

/-! ### Small list lemmas -/

lemma set_getElem?_self {α : Type} :
    ∀ (l : List α) (i : Nat) (a : α), l[i]? = some a → l.set i a = l := by
  intro l
  induction l with
  | nil => intro i a h; simp at h
  | cons x xs ih =>
    intro i a h
    cases i with
    | zero => simp at h; simp [h]
    | succ n =>
      simp only [List.getElem?_cons_succ] at h
      simp only [List.set_cons_succ, List.cons.injEq, true_and]
      exact ih n a h

lemma mem_of_getLast?' {α : Type} :
    ∀ (l : List α) (a : α), l.getLast? = some a → a ∈ l := by
  intro l
  induction l with
  | nil => intro a h; simp at h
  | cons x xs ih =>
    intro a h
    cases xs with
    | nil =>
      simp only [List.getLast?_singleton, Option.some.injEq] at h
      simp [h]
    | cons y ys =>
      rw [List.getLast?_cons_cons] at h
      exact List.mem_cons_of_mem x (ih a h)

lemma map_filter_comm {α β : Type} (f : α → β) (q : β → Bool) :
    ∀ l : List α, (l.filter (fun a => q (f a))).map f = (l.map f).filter q := by
  intro l
  induction l with
  | nil => rfl
  | cons x xs ih =>
    rw [List.filter_cons, List.map_cons, List.filter_cons]
    by_cases hq : q (f x) = true
    · simp only [hq, if_true, List.map_cons, ih]
    · simp only [Bool.not_eq_true] at hq
      simp only [hq, Bool.false_eq_true, if_false, ih]

lemma filter_eq_self_of_length {α : Type} (p : α → Bool) :
    ∀ l : List α, (l.filter p).length = l.length → l.filter p = l := by
  intro l
  induction l with
  | nil => intro _; rfl
  | cons x xs ih =>
    intro h
    rw [List.filter_cons] at h ⊢
    by_cases hp : p x = true
    · rw [if_pos hp] at h ⊢
      rw [List.length_cons, List.length_cons] at h
      rw [ih (by omega)]
    · rw [if_neg hp] at h ⊢
      have hle := List.length_filter_le p xs
      rw [List.length_cons] at h
      omega

lemma pairwise_le_getLast :
    ∀ (ns : List Nat) (m : Nat), ns.Pairwise (· < ·) → ns.getLast? = some m →
      ∀ x ∈ ns, x ≤ m := by
  intro ns
  induction ns with
  | nil => intro m _ h; simp at h
  | cons a t ih =>
    intro m hp hl x hx
    rw [List.pairwise_cons] at hp
    cases t with
    | nil =>
      simp only [List.getLast?_singleton, Option.some.injEq] at hl
      rw [List.mem_singleton] at hx
      omega
    | cons b u =>
      rw [List.getLast?_cons_cons] at hl
      rcases List.mem_cons.mp hx with rfl | hx'
      · exact le_of_lt (hp.1 m (mem_of_getLast?' _ _ hl))
      · exact ih m hp.2 hl x hx'

/-! ### Characterization of `findIndexOpt` -/

lemma findIndexOpt_some {p : Obj → Bool} :
    ∀ {bs : List Obj} {i : Nat}, findIndexOpt p bs = some i →
      i < bs.length ∧ ∃ b, bs[i]? = some b ∧ p b = true := by
  intro bs
  induction bs with
  | nil => intro i h; simp [findIndexOpt] at h
  | cons x xs ih =>
    intro i h
    rw [findIndexOpt] at h
    split at h
    · next hp =>
      cases h
      exact ⟨by simp, x, by simp, hp⟩
    · next hp =>
      cases hfi : findIndexOpt p xs with
      | none => rw [hfi] at h; simp at h
      | some j =>
        rw [hfi] at h
        simp only [Option.map_some', Option.some.injEq] at h
        obtain ⟨hlt, b, hb, hpb⟩ := ih hfi
        subst h
        refine ⟨by simp; omega, b, ?_, hpb⟩
        simpa using hb

lemma findIndexOpt_none {p : Obj → Bool} :
    ∀ {bs : List Obj}, findIndexOpt p bs = none → ∀ b ∈ bs, p b = false := by
  intro bs
  induction bs with
  | nil => intro _ b hb; simp at hb
  | cons x xs ih =>
    intro h b hb
    rw [findIndexOpt] at h
    split at h
    · simp at h
    · next hp =>
      rcases List.mem_cons.mp hb with rfl | hb'
      · exact Bool.eq_false_iff.mpr hp
      · cases hfi : findIndexOpt p xs with
        | none => exact ih hfi b hb'
        | some j => rw [hfi] at h; simp at h

/-! ### Branch equations for the handlers -/

lemma listBooks_fst (bs : List Obj) : (listBooks bs).1 = bs := by
  unfold listBooks
  split <;> rfl

lemma getBook_fst (bs : List Obj) (id : String) : (getBook bs id).1 = bs := by
  unfold getBook
  cases findBookById bs id <;> rfl

lemma getBook_found (bs : List Obj) (id : String) (b : Obj)
    (h : findBookById bs id = some b) :
    getBook bs id =
      (bs, ⟨200, "success", s!"Successfully retrieved book with id {id}", some (RData.one b)⟩) := by
  unfold getBook
  rw [h]

lemma getBook_notFound (bs : List Obj) (id : String)
    (h : findBookById bs id = none) :
    getBook bs id = (bs, ⟨404, "fail", s!"Book with id {id} not found", none⟩) := by
  unfold getBook
  rw [h]

lemma createBook_invalid (bs : List Obj) (body : Obj)
    (hv : (!truthy (body.get "title") || !truthy (body.get "author") ||
      !truthy (body.get "year")) = true) :
    createBook bs body = (bs, ⟨400, "fail", "Title, author, and year are required", none⟩) := by
  unfold createBook
  rw [hv]
  rfl

lemma createBook_valid (bs : List Obj) (body : Obj)
    (hv : (!truthy (body.get "title") || !truthy (body.get "author") ||
      !truthy (body.get "year")) = false) :
    createBook bs body =
      (bs ++ [⟨[("id", Value.str (generateNewId bs)), ("title", body.get "title"),
          ("author", body.get "author"), ("year", body.get "year")]⟩],
       ⟨201, "success", "Book added successfully",
        some (RData.one ⟨[("id", Value.str (generateNewId bs)), ("title", body.get "title"),
          ("author", body.get "author"), ("year", body.get "year")]⟩)⟩) := by
  unfold createBook
  rw [hv]
  rfl

lemma putBook_notFound (bs : List Obj) (id : String) (body : Obj)
    (h : findIndexOpt (fun b => decide (b.get "id" = Value.str id)) bs = none) :
    putBook bs id body = (bs, ⟨404, "fail", s!"Book with id {id} not found", none⟩) := by
  unfold putBook
  rw [h]

lemma putBook_invalid (bs : List Obj) (id : String) (body : Obj) (i : Nat)
    (h : findIndexOpt (fun b => decide (b.get "id" = Value.str id)) bs = some i)
    (hv : (!truthy (body.get "title") || !truthy (body.get "author") ||
      !truthy (body.get "year")) = true) :
    putBook bs id body =
      (bs, ⟨400, "fail", "Title, author, and year are required for a complete update", none⟩) := by
  unfold putBook
  rw [h, hv]
  rfl

lemma putBook_valid (bs : List Obj) (id : String) (body : Obj) (i : Nat)
    (h : findIndexOpt (fun b => decide (b.get "id" = Value.str id)) bs = some i)
    (hv : (!truthy (body.get "title") || !truthy (body.get "author") ||
      !truthy (body.get "year")) = false) :
    putBook bs id body =
      (bs.set i (spread ((bs[i]?).getD ⟨[]⟩)
          ⟨[("title", body.get "title"), ("author", body.get "author"),
            ("year", body.get "year")]⟩),
       ⟨200, "success", s!"Book with id {id} updated successfully (full update)",
        some (RData.one (spread ((bs[i]?).getD ⟨[]⟩)
          ⟨[("title", body.get "title"), ("author", body.get "author"),
            ("year", body.get "year")]⟩))⟩) := by
  unfold putBook
  rw [h, hv]
  rfl

lemma patchBook_notFound (bs : List Obj) (id : String) (body : Obj)
    (h : findIndexOpt (fun b => decide (b.get "id" = Value.str id)) bs = none) :
    patchBook bs id body = (bs, ⟨404, "fail", s!"Book with id {id} not found", none⟩) := by
  unfold patchBook
  rw [h]

lemma patchBook_found (bs : List Obj) (id : String) (body : Obj) (i : Nat)
    (h : findIndexOpt (fun b => decide (b.get "id" = Value.str id)) bs = some i) :
    patchBook bs id body =
      (bs.set i (spread ((bs[i]?).getD ⟨[]⟩) body),
       ⟨200, "success", s!"Book with id {id} updated successfully (partial update)",
        some (RData.one (spread ((bs[i]?).getD ⟨[]⟩) body))⟩) := by
  unfold patchBook
  rw [h]

lemma deleteBook_fst (bs : List Obj) (id : String) :
    (deleteBook bs id).1 = bs.filter (fun b => !decide (b.get "id" = Value.str id)) := by
  simp only [deleteBook]
  split <;> rfl

lemma deleteBook_success (bs : List Obj) (id : String)
    (h : (bs.filter (fun b => !decide (b.get "id" = Value.str id))).length < bs.length) :
    (deleteBook bs id).2 = ⟨200, "success", s!"Book with id {id} deleted successfully", none⟩ := by
  simp only [deleteBook]
  rw [if_pos h]

lemma deleteBook_fail (bs : List Obj) (id : String)
    (h : ¬ (bs.filter (fun b => !decide (b.get "id" = Value.str id))).length < bs.length) :
    (deleteBook bs id).2 = ⟨404, "fail", s!"Book with id {id} not found", none⟩ := by
  simp only [deleteBook]
  rw [if_neg h]

/-! ### The id invariant under id-safe request sequences -/

lemma idOf_newBook (v : Value) (rest : List (String × Value)) :
    idOf ⟨("id", v) :: rest⟩ = v := by
  simp [idOf, Obj.get, lookupKey]

lemma goodIds_generateNewId (bs : List Obj) (ns : List Nat) (m : Nat)
    (hmap : bs.map idOf = ns.map idVal) (hlast : ns.getLast? = some m) :
    generateNewId bs = natToStr (m + 1) := by
  have hbs : bs.getLast?.map idOf = ns.getLast?.map idVal := by
    rw [← List.getLast?_map, ← List.getLast?_map, hmap]
  rw [hlast] at hbs
  cases hb : bs.getLast? with
  | none => rw [hb] at hbs; simp at hbs
  | some b =>
    rw [hb] at hbs
    simp only [Option.map_some', Option.some.injEq] at hbs
    have hid : b.get "id" = Value.str (natToStr m) := hbs
    unfold generateNewId
    rw [hb]
    show (match jsParseInt (valueToString (b.get "id")) with
      | none => "NaN"
      | some n => intToStr (n + 1)) = natToStr (m + 1)
    rw [hid]
    show (match jsParseInt (natToStr m) with
      | none => "NaN"
      | some n => intToStr (n + 1)) = natToStr (m + 1)
    rw [jsParseInt_natToStr]
    show intToStr ((m : Int) + 1) = natToStr (m + 1)
    exact intToStr_coe_succ m

lemma goodIds_apply (bs : List Obj) (r : Request) (hg : GoodIds bs)
    (hr : idSafe r = true) : GoodIds (applyRequest bs r).1 := by
  obtain ⟨ns, hmap, hpw⟩ := hg
  cases r with
  | listAll =>
    rw [applyRequest, listBooks_fst]
    exact ⟨ns, hmap, hpw⟩
  | getOne id =>
    rw [applyRequest, getBook_fst]
    exact ⟨ns, hmap, hpw⟩
  | create body =>
    rw [applyRequest]
    cases hv : (!truthy (body.get "title") || !truthy (body.get "author") ||
        !truthy (body.get "year")) with
    | true =>
      rw [createBook_invalid bs body hv]
      exact ⟨ns, hmap, hpw⟩
    | false =>
      rw [createBook_valid bs body hv]
      cases hl : ns.getLast? with
      | none =>
        have hns : ns = [] := by simpa using hl
        subst hns
        have hbs : bs = [] := List.map_eq_nil_iff.mp (by rw [hmap]; rfl)
        subst hbs
        refine ⟨[1], ?_, by simp⟩
        simp only [List.nil_append, List.map_cons, List.map_nil, idOf_newBook]
        rfl
      | some m =>
        refine ⟨ns ++ [m + 1], ?_, ?_⟩
        · rw [List.map_append, List.map_append, hmap]
          congr 1
          simp only [List.map_cons, List.map_nil, idOf_newBook]
          rw [goodIds_generateNewId bs ns m hmap hl]
          rfl
        · rw [List.pairwise_append]
          refine ⟨hpw, by simp, fun x hx y hy => ?_⟩
          rw [List.mem_singleton] at hy
          subst hy
          have := pairwise_le_getLast ns m hpw hl x hx
          omega
  | putOne id body =>
    rw [applyRequest]
    cases hfi : findIndexOpt (fun b => decide (b.get "id" = Value.str id)) bs with
    | none =>
      rw [putBook_notFound bs id body hfi]
      exact ⟨ns, hmap, hpw⟩
    | some i =>
      cases hv : (!truthy (body.get "title") || !truthy (body.get "author") ||
          !truthy (body.get "year")) with
      | true =>
        rw [putBook_invalid bs id body i hfi hv]
        exact ⟨ns, hmap, hpw⟩
      | false =>
        rw [putBook_valid bs id body i hfi hv]
        obtain ⟨hlt, b, hb, hpb⟩ := findIndexOpt_some hfi
        have hold : (bs[i]?).getD ⟨[]⟩ = b := by rw [hb]; rfl
        have hsp : idOf (spread ((bs[i]?).getD ⟨[]⟩)
            ⟨[("title", body.get "title"), ("author", body.get "author"),
              ("year", body.get "year")]⟩) = idOf b := by
          rw [hold]
          exact spread_get_of_not_hasKey b _ "id" rfl
        refine ⟨ns, ?_, hpw⟩
        rw [List.map_set, hsp]
        have hmi : (bs.map idOf)[i]? = some (idOf b) := by
          rw [List.getElem?_map, hb]
          rfl
        rw [set_getElem?_self _ _ _ hmi, hmap]
  | patchOne id body =>
    rw [applyRequest]
    have hbk : body.hasKey "id" = false := by
      rw [idSafe] at hr
      simpa using hr
    cases hfi : findIndexOpt (fun b => decide (b.get "id" = Value.str id)) bs with
    | none =>
      rw [patchBook_notFound bs id body hfi]
      exact ⟨ns, hmap, hpw⟩
    | some i =>
      rw [patchBook_found bs id body i hfi]
      obtain ⟨hlt, b, hb, hpb⟩ := findIndexOpt_some hfi
      have hold : (bs[i]?).getD ⟨[]⟩ = b := by rw [hb]; rfl
      have hsp : idOf (spread ((bs[i]?).getD ⟨[]⟩) body) = idOf b := by
        rw [hold]
        exact spread_get_of_not_hasKey b body "id" hbk
      refine ⟨ns, ?_, hpw⟩
      rw [List.map_set, hsp]
      have hmi : (bs.map idOf)[i]? = some (idOf b) := by
        rw [List.getElem?_map, hb]
        rfl
      rw [set_getElem?_self _ _ _ hmi, hmap]
  | deleteOne id =>
    rw [applyRequest, deleteBook_fst]
    refine ⟨ns.filter (fun n => !decide (idVal n = Value.str id)), ?_, hpw.filter _⟩
    have h1 : (bs.filter (fun b => !decide (b.get "id" = Value.str id))).map idOf
        = (bs.map idOf).filter (fun v => !decide (v = Value.str id)) :=
      map_filter_comm idOf (fun v => !decide (v = Value.str id)) bs
    rw [h1, hmap, ← map_filter_comm]

lemma goodIds_run : ∀ (rs : List Request) (bs : List Obj), GoodIds bs →
    (∀ r ∈ rs, idSafe r = true) → GoodIds (runRequests bs rs) := by
  intro rs
  induction rs with
  | nil => intro bs hg _; exact hg
  | cons r rest ih =>
    intro bs hg hall
    rw [runRequests]
    exact ih _ (goodIds_apply bs r hg (hall r (List.mem_cons_self r rest)))
      (fun x hx => hall x (List.mem_cons_of_mem r hx))

lemma goodIds_seed : GoodIds seedBooks := by
  refine ⟨[1, 2], by decide, by decide⟩

lemma goodIds_nodup (bs : List Obj) (hg : GoodIds bs) : (bs.map idOf).Nodup := by
  obtain ⟨ns, hmap, hpw⟩ := hg
  rw [hmap]
  have hnd : ns.Nodup := hpw.imp fun h => Nat.ne_of_lt h
  exact hnd.map idVal_inj

lemma goodIds_fresh (bs : List Obj) (hg : GoodIds bs) :
    ∀ b ∈ bs, idOf b ≠ Value.str (generateNewId bs) := by
  obtain ⟨ns, hmap, hpw⟩ := hg
  intro b hb heq
  cases hl : ns.getLast? with
  | none =>
    have hns : ns = [] := by simpa using hl
    subst hns
    have hbs : bs = [] := List.map_eq_nil_iff.mp (by rw [hmap]; rfl)
    subst hbs
    simp at hb
  | some m =>
    rw [goodIds_generateNewId bs ns m hmap hl] at heq
    have hmem : idOf b ∈ ns.map idVal := by
      rw [← hmap]
      exact List.mem_map_of_mem idOf hb
    obtain ⟨x, hx, hxe⟩ := List.mem_map.mp hmem
    have hxm : x = m + 1 := idVal_inj (by rw [hxe]; exact heq)
    have hle := pairwise_le_getLast ns m hpw hl x hx
    omega

lemma lookupKey_map_override_found (b : Obj) (k : String) (hb : b.hasKey k = true) :
    ∀ l : List (String × Value), hasKeyL k l = true →
      lookupKey k (l.map (fun p => if b.hasKey p.1 = true then (p.1, b.get p.1) else p)) =
        b.get k := by
  intro l
  induction l with
  | nil => intro h; simp [hasKeyL] at h
  | cons p ps ih =>
    intro h
    rw [List.map_cons, lookupKey, override_key]
    by_cases hk : p.1 = k
    · rw [if_pos hk]
      have hbp : b.hasKey p.1 = true := by rw [hk]; exact hb
      rw [hbp]
      simp only [if_true]
      rw [hk]
    · rw [if_neg hk]
      rw [hasKeyL, Bool.or_eq_true] at h
      rcases h with h | h
      · exact absurd (of_decide_eq_true h) hk
      · exact ih h

lemma lookupKey_filter_keep (k : String) (q : String × Value → Bool)
    (hq : ∀ p : String × Value, p.1 = k → q p = true) :
    ∀ l : List (String × Value), lookupKey k (l.filter q) = lookupKey k l := by
  intro l
  induction l with
  | nil => rfl
  | cons p ps ih =>
    rw [List.filter_cons]
    by_cases hk : p.1 = k
    · rw [if_pos (hq p hk), lookupKey, lookupKey, if_pos hk, if_pos hk]
    · rw [lookupKey, if_neg hk]
      split
      · rw [lookupKey, if_neg hk]
        exact ih
      · exact ih

lemma spread_get_of_hasKey (a b : Obj) (k : String) (h : b.hasKey k = true) :
    (spread a b).get k = b.get k := by
  show lookupKey k (spread a b).entries = lookupKey k b.entries
  rw [spread]
  show lookupKey k (_ ++ _) = _
  rw [lookupKey_append, hasKeyL_map_override]
  by_cases ha : hasKeyL k a.entries = true
  · rw [if_pos ha]
    exact lookupKey_map_override_found b k h a.entries ha
  · rw [if_neg ha]
    refine lookupKey_filter_keep k _ (fun p hp => ?_) b.entries
    show (!a.hasKey p.1) = true
    rw [hp]
    show (!hasKeyL k a.entries) = true
    rw [Bool.eq_false_iff.mpr ha]
    rfl

lemma spread_empty (a : Obj) : spread a ⟨[]⟩ = a := by
  rw [spread]
  simp [Obj.hasKey, hasKeyL]

/-! ### Concrete request bodies and states used in scenarios -/

/-- The valid create body of the spec scenario. -/
def duneBody : Obj :=
  ⟨[("title", Value.str "Dune"), ("author", Value.str "Herbert"),
    ("year", Value.num 1965)]⟩

/-- A second valid create body. -/
def xyBody : Obj :=
  ⟨[("title", Value.str "X"), ("author", Value.str "Y"), ("year", Value.num 1)]⟩

/-- A valid full-update body. -/
def fullBody : Obj :=
  ⟨[("title", Value.str "T"), ("author", Value.str "A"), ("year", Value.num 2000)]⟩

/-- Reachable state in which the second seed record's id was patched to
`"0"` (the last record now has the numerically smallest id). -/
def collideState : List Obj :=
  runRequests seedBooks [Request.patchOne "2" ⟨[("id", Value.str "0")]⟩]

/-- Reachable state in which a partial update added the extra field
`"note"` to the first seed record. -/
def extraState : List Obj :=
  runRequests seedBooks [Request.patchOne "1" ⟨[("note", Value.str "x")]⟩]

/-- The first seed record after the `"note"` patch of `extraState`. -/
def patchedSeed1 : Obj :=
  ⟨[("id", Value.str "1"), ("title", Value.str "The Lord of the Rings"),
    ("author", Value.str "J.R.R. Tolkien"), ("year", Value.num 1954),
    ("note", Value.str "x")]⟩

/-! ### Claims -/

/-- Claim C1: `generateNewId` returns `"1"` on the empty collection and
otherwise one plus the parsed id of the last record in insertion order,
stringified; concretely, from the seed state a valid create is assigned id
`"3"`, and after then deleting id `"1"` the next valid create is assigned
id `"4"` (last-element-based, not max-based). -/
theorem C1_generateNewId :
    generateNewId [] = "1"
    ∧ (∀ (bs : List Obj) (b : Obj) (n : Int), bs.getLast? = some b →
        jsParseInt (valueToString (b.get "id")) = some n →
        generateNewId bs = intToStr (n + 1))
    ∧ (createBook seedBooks duneBody).2.data
        = some (RData.one ⟨[("id", Value.str "3"), ("title", Value.str "Dune"),
            ("author", Value.str "Herbert"), ("year", Value.num 1965)]⟩)
    ∧ (createBook (runRequests seedBooks
          [Request.create duneBody, Request.deleteOne "1"]) xyBody).2.data
        = some (RData.one ⟨[("id", Value.str "4"), ("title", Value.str "X"),
            ("author", Value.str "Y"), ("year", Value.num 1)]⟩) := by
  refine ⟨rfl, ?_, by decide, by decide⟩
  intro bs b n hb hp
  unfold generateNewId
  rw [hb]
  show (match jsParseInt (valueToString (b.get "id")) with
    | none => "NaN"
    | some n => intToStr (n + 1)) = intToStr (n + 1)
  rw [hp]

theorem C1_generateNewId_witness :
    generateNewId [mkBook "7" "t" "a" 2000] = "8" :=
  (C1_generateNewId.2.1 [mkBook "7" "t" "a" 2000] (mkBook "7" "t" "a" 2000) 7
    (by decide) (by decide)).trans (by decide)

/-- Claim C6: listing on an empty collection responds 404/"fail" with the
message "No books found" rather than an empty success; on a non-empty
collection it responds 200/"success" with the whole collection in order. -/
theorem C6_list (bs : List Obj) :
    (bs = [] → listBooks bs = (bs, ⟨404, "fail", "No books found", none⟩))
    ∧ (bs ≠ [] → listBooks bs =
        (bs, ⟨200, "success", "Successfully retrieved all books",
          some (RData.many bs)⟩)) := by
  constructor
  · intro h
    subst h
    rfl
  · intro h
    unfold listBooks
    rw [if_pos (List.length_pos.mpr h)]

theorem C6_list_witness :
    listBooks ([] : List Obj) = ([], ⟨404, "fail", "No books found", none⟩)
    ∧ listBooks seedBooks =
      (seedBooks, ⟨200, "success", "Successfully retrieved all books",
        some (RData.many seedBooks)⟩) :=
  ⟨(C6_list []).1 rfl, (C6_list seedBooks).2 (by decide)⟩

/-- Claim C9: a partial update with the empty body `{}` on an id present in
the collection responds 200/"success" and leaves the collection, hence the
targeted record, unchanged. -/
theorem C9_patch_empty (bs : List Obj) (id : String) (i : Nat)
    (h : findIndexOpt (fun b => decide (b.get "id" = Value.str id)) bs = some i) :
    (patchBook bs id ⟨[]⟩).1 = bs
    ∧ (patchBook bs id ⟨[]⟩).2.code = 200
    ∧ (patchBook bs id ⟨[]⟩).2.status = "success" := by
  obtain ⟨hlt, b, hb, hpb⟩ := findIndexOpt_some h
  rw [patchBook_found bs id ⟨[]⟩ i h]
  have hold : (bs[i]?).getD ⟨[]⟩ = b := by rw [hb]; rfl
  refine ⟨?_, rfl, rfl⟩
  show bs.set i (spread ((bs[i]?).getD ⟨[]⟩) ⟨[]⟩) = bs
  rw [hold, spread_empty b, set_getElem?_self bs i b hb]

theorem C9_patch_empty_witness :
    (patchBook seedBooks "2" ⟨[]⟩).1 = seedBooks
    ∧ (patchBook seedBooks "2" ⟨[]⟩).2.code = 200
    ∧ (patchBook seedBooks "2" ⟨[]⟩).2.status = "success" :=
  C9_patch_empty seedBooks "2" 1 (by decide)

/-- Claim C7: every request answered with a failure envelope (status
"fail", i.e. NotFound or InvalidInput) leaves the collection exactly as it
was: no record is added, removed or modified on any error path. -/
theorem C7_fail_frame (bs : List Obj) (r : Request)
    (h : (applyRequest bs r).2.status = "fail") :
    (applyRequest bs r).1 = bs := by
  cases r with
  | listAll => exact listBooks_fst bs
  | getOne id => exact getBook_fst bs id
  | create body =>
    rw [applyRequest] at h ⊢
    cases hv : (!truthy (body.get "title") || !truthy (body.get "author") ||
        !truthy (body.get "year")) with
    | true => rw [createBook_invalid bs body hv]
    | false =>
      rw [createBook_valid bs body hv] at h
      simp at h
  | putOne id body =>
    rw [applyRequest] at h ⊢
    cases hfi : findIndexOpt (fun b => decide (b.get "id" = Value.str id)) bs with
    | none => rw [putBook_notFound bs id body hfi]
    | some i =>
      cases hv : (!truthy (body.get "title") || !truthy (body.get "author") ||
          !truthy (body.get "year")) with
      | true => rw [putBook_invalid bs id body i hfi hv]
      | false =>
        rw [putBook_valid bs id body i hfi hv] at h
        simp at h
  | patchOne id body =>
    rw [applyRequest] at h ⊢
    cases hfi : findIndexOpt (fun b => decide (b.get "id" = Value.str id)) bs with
    | none => rw [patchBook_notFound bs id body hfi]
    | some i =>
      rw [patchBook_found bs id body i hfi] at h
      simp at h
  | deleteOne id =>
    rw [applyRequest] at h ⊢
    by_cases hlen : (bs.filter (fun b => !decide (b.get "id" = Value.str id))).length
        < bs.length
    · rw [deleteBook_success bs id hlen] at h
      simp at h
    · rw [deleteBook_fst]
      have hle := List.length_filter_le (fun b => !decide (b.get "id" = Value.str id)) bs
      exact filter_eq_self_of_length _ bs (by omega)

theorem C7_fail_frame_witness :
    (applyRequest seedBooks (Request.getOne "9")).1 = seedBooks :=
  C7_fail_frame seedBooks (Request.getOne "9") (by decide)

/-- Claim C8: no operation ever reorders the collection: each request
either leaves it unchanged, appends one record at the end, replaces one
record in place, or removes records keeping the remaining ones in order (a
sublist); the records present both before and after therefore keep their
relative order. -/
theorem C8_no_reorder (bs : List Obj) (r : Request) :
    (applyRequest bs r).1 = bs
    ∨ (∃ nb : Obj, (applyRequest bs r).1 = bs ++ [nb])
    ∨ (∃ i : Nat, ∃ u : Obj, i < bs.length ∧ (applyRequest bs r).1 = bs.set i u)
    ∨ (applyRequest bs r).1.Sublist bs := by
  cases r with
  | listAll => exact Or.inl (listBooks_fst bs)
  | getOne id => exact Or.inl (getBook_fst bs id)
  | create body =>
    rw [applyRequest]
    cases hv : (!truthy (body.get "title") || !truthy (body.get "author") ||
        !truthy (body.get "year")) with
    | true =>
      rw [createBook_invalid bs body hv]
      exact Or.inl rfl
    | false =>
      rw [createBook_valid bs body hv]
      exact Or.inr (Or.inl ⟨_, rfl⟩)
  | putOne id body =>
    rw [applyRequest]
    cases hfi : findIndexOpt (fun b => decide (b.get "id" = Value.str id)) bs with
    | none =>
      rw [putBook_notFound bs id body hfi]
      exact Or.inl rfl
    | some i =>
      cases hv : (!truthy (body.get "title") || !truthy (body.get "author") ||
          !truthy (body.get "year")) with
      | true =>
        rw [putBook_invalid bs id body i hfi hv]
        exact Or.inl rfl
      | false =>
        rw [putBook_valid bs id body i hfi hv]
        exact Or.inr (Or.inr (Or.inl ⟨i, _, (findIndexOpt_some hfi).1, rfl⟩))
  | patchOne id body =>
    rw [applyRequest]
    cases hfi : findIndexOpt (fun b => decide (b.get "id" = Value.str id)) bs with
    | none =>
      rw [patchBook_notFound bs id body hfi]
      exact Or.inl rfl
    | some i =>
      rw [patchBook_found bs id body i hfi]
      exact Or.inr (Or.inr (Or.inl ⟨i, _, (findIndexOpt_some hfi).1, rfl⟩))
  | deleteOne id =>
    rw [applyRequest, deleteBook_fst]
    exact Or.inr (Or.inr (Or.inr (List.filter_sublist bs)))

/-- Claim C2 as stated is false: partial update is one of the six
operations and its merge may overwrite the `id` field, so the state reached
from the seeds by the single request `PATCH /books/1 {"id":"2"}` holds two
records whose ids are both `"2"`. -/
theorem C2_counterexample :
    ¬ ((runRequests seedBooks
        [Request.patchOne "1" ⟨[("id", Value.str "2")]⟩]).map idOf).Nodup := by
  decide

/-- Claim C2 amended: in every state reachable from the seed state by a
request sequence in which no partial-update body carries an `"id"` key, the
records' ids are pairwise distinct. -/
theorem C2_id_unique (rs : List Request) (h : ∀ r ∈ rs, idSafe r = true) :
    ((runRequests seedBooks rs).map idOf).Nodup :=
  goodIds_nodup _ (goodIds_run rs seedBooks goodIds_seed h)

theorem C2_id_unique_witness :
    ((runRequests seedBooks [Request.create duneBody, Request.deleteOne "1",
        Request.create xyBody]).map idOf).Nodup :=
  C2_id_unique [Request.create duneBody, Request.deleteOne "1",
    Request.create xyBody] (by decide)

/-- Claim C3 as stated is false: in the reachable state `collideState`
(seeds, then `PATCH /books/2 {"id":"0"}`), a create whose three fields are
all truthy is assigned id `"1"`, which is already the id of the first seed
record still present; the length does grow by one. -/
theorem C3_counterexample :
    truthy (duneBody.get "title") = true
    ∧ truthy (duneBody.get "author") = true
    ∧ truthy (duneBody.get "year") = true
    ∧ (createBook collideState duneBody).2.data
        = some (RData.one ⟨[("id", Value.str "1"), ("title", Value.str "Dune"),
            ("author", Value.str "Herbert"), ("year", Value.num 1965)]⟩)
    ∧ mkBook "1" "The Lord of the Rings" "J.R.R. Tolkien" 1954 ∈ collideState
    ∧ idOf (mkBook "1" "The Lord of the Rings" "J.R.R. Tolkien" 1954) = Value.str "1"
    ∧ (createBook collideState duneBody).1.length = collideState.length + 1 := by
  decide

/-- Claim C3 amended: for every create whose title, author and year are all
truthy, executed in a state reachable by a request sequence in which no
partial-update body carries an `"id"` key, the assigned id differs from the
id of every record already present, and the length grows by exactly one. -/
theorem C3_create_fresh (rs : List Request) (body : Obj)
    (hsafe : ∀ r ∈ rs, idSafe r = true)
    (ht : truthy (body.get "title") = true)
    (ha : truthy (body.get "author") = true)
    (hy : truthy (body.get "year") = true) :
    (∀ b ∈ runRequests seedBooks rs,
        idOf b ≠ Value.str (generateNewId (runRequests seedBooks rs)))
    ∧ (createBook (runRequests seedBooks rs) body).1.length
        = (runRequests seedBooks rs).length + 1
    ∧ (createBook (runRequests seedBooks rs) body).2.data
        = some (RData.one ⟨[("id", Value.str (generateNewId (runRequests seedBooks rs))),
            ("title", body.get "title"), ("author", body.get "author"),
            ("year", body.get "year")]⟩) := by
  have hg := goodIds_run rs seedBooks goodIds_seed hsafe
  have hv : (!truthy (body.get "title") || !truthy (body.get "author") ||
      !truthy (body.get "year")) = false := by
    rw [ht, ha, hy]
    rfl
  refine ⟨goodIds_fresh _ hg, ?_, ?_⟩
  · rw [createBook_valid _ body hv]
    simp
  · rw [createBook_valid _ body hv]

theorem C3_create_fresh_witness :
    (createBook (runRequests seedBooks [Request.deleteOne "1"]) duneBody).1.length
      = (runRequests seedBooks [Request.deleteOne "1"]).length + 1 :=
  (C3_create_fresh [Request.deleteOne "1"] duneBody (by decide) (by decide)
    (by decide) (by decide)).2.1

/-- Claim C4 as stated is false in its "consists exactly of the four
fields" part: in the reachable state `extraState` a partial update added
the field "note" to record "1"; a subsequent fully valid PUT succeeds (200)
but the updated record still carries "note" — the handler spreads the old
record and overwrites only title, author and year. -/
theorem C4_counterexample :
    (putBook extraState "1" fullBody).2.code = 200
    ∧ ((putBook extraState "1" fullBody).1.map (fun b => b.hasKey "note"))
        = [true, false] := by
  decide

/-- Claim C4 amended: on a full update, an absent id yields NotFound (404,
"fail") regardless of the body; a present id with any falsy field leaves
the collection unchanged and yields InvalidInput (400, "fail"); a present
id with all three fields truthy yields 200 and replaces the record so that
its id and all fields other than title, author and year are retained while
title, author and year are overwritten with the body's values. -/
theorem C4_put (bs : List Obj) (id : String) (body : Obj) :
    (findIndexOpt (fun b => decide (b.get "id" = Value.str id)) bs = none →
      putBook bs id body = (bs, ⟨404, "fail", s!"Book with id {id} not found", none⟩))
    ∧ (∀ i, findIndexOpt (fun b => decide (b.get "id" = Value.str id)) bs = some i →
        (!truthy (body.get "title") || !truthy (body.get "author") ||
          !truthy (body.get "year")) = true →
        putBook bs id body = (bs,
          ⟨400, "fail", "Title, author, and year are required for a complete update", none⟩))
    ∧ (∀ i old, findIndexOpt (fun b => decide (b.get "id" = Value.str id)) bs = some i →
        bs[i]? = some old →
        truthy (body.get "title") = true →
        truthy (body.get "author") = true →
        truthy (body.get "year") = true →
        ∀ u, (putBook bs id body).1[i]? = some u →
          (putBook bs id body).2 = ⟨200, "success",
              s!"Book with id {id} updated successfully (full update)", some (RData.one u)⟩
          ∧ u.get "id" = old.get "id"
          ∧ u.get "title" = body.get "title"
          ∧ u.get "author" = body.get "author"
          ∧ u.get "year" = body.get "year"
          ∧ (∀ k, k ≠ "title" → k ≠ "author" → k ≠ "year" →
              u.get k = old.get k)) := by
  refine ⟨putBook_notFound bs id body,
    fun i h hv => putBook_invalid bs id body i h hv, ?_⟩
  intro i old hfi hold ht ha hy u hu
  have hv : (!truthy (body.get "title") || !truthy (body.get "author") ||
      !truthy (body.get "year")) = false := by
    rw [ht, ha, hy]
    rfl
  have hlt := (findIndexOpt_some hfi).1
  rw [putBook_valid bs id body i hfi hv] at hu ⊢
  rw [List.getElem?_set_eq hlt] at hu
  have hu' := Option.some.inj hu
  subst hu'
  have holdD : (bs[i]?).getD ⟨[]⟩ = old := by rw [hold]; rfl
  rw [holdD]
  refine ⟨rfl, ?_, ?_, ?_, ?_, ?_⟩
  · exact spread_get_of_not_hasKey old _ "id" rfl
  · exact spread_get_of_hasKey old _ "title" rfl
  · exact spread_get_of_hasKey old _ "author" rfl
  · exact spread_get_of_hasKey old _ "year" rfl
  · intro k hkt hka hky
    refine spread_get_of_not_hasKey old _ k ?_
    simp only [Obj.hasKey, hasKeyL, Bool.or_eq_false_iff, decide_eq_false_iff_not]
    exact ⟨fun h => hkt h.symm, fun h => hka h.symm, fun h => hky h.symm, trivial⟩

/-- The first record of `extraState` after the fully valid PUT of
`fullBody`. -/
def updatedSeed1 : Obj :=
  ⟨[("id", Value.str "1"), ("title", Value.str "T"), ("author", Value.str "A"),
    ("year", Value.num 2000), ("note", Value.str "x")]⟩

theorem C4_put_witness :
    Obj.get updatedSeed1 "note" = Obj.get patchedSeed1 "note" :=
  ((C4_put extraState "1" fullBody).2.2 0 patchedSeed1 (by decide) (by decide)
    (by decide) (by decide) (by decide) updatedSeed1 (by decide)).2.2.2.2.2
    "note" (by decide) (by decide) (by decide)

/-- Claim C10: a successful full update on an existing record keeps the
collection's length, leaves every other record (and its position)
unchanged, and preserves every field of the targeted record other than
title, author and year — including extra fields previously added by a
partial update. -/
theorem C10_put_frame (bs : List Obj) (id : String) (body : Obj) (i : Nat) (old : Obj)
    (hfi : findIndexOpt (fun b => decide (b.get "id" = Value.str id)) bs = some i)
    (hold : bs[i]? = some old)
    (ht : truthy (body.get "title") = true)
    (ha : truthy (body.get "author") = true)
    (hy : truthy (body.get "year") = true) :
    (putBook bs id body).1.length = bs.length
    ∧ (∀ j, j ≠ i → (putBook bs id body).1[j]? = bs[j]?)
    ∧ (∀ u, (putBook bs id body).1[i]? = some u →
        ∀ k, k ≠ "title" → k ≠ "author" → k ≠ "year" → u.get k = old.get k) := by
  have hv : (!truthy (body.get "title") || !truthy (body.get "author") ||
      !truthy (body.get "year")) = false := by
    rw [ht, ha, hy]
    rfl
  have hlt := (findIndexOpt_some hfi).1
  rw [putBook_valid bs id body i hfi hv]
  refine ⟨List.length_set bs i _, fun j hj => List.getElem?_set_ne (Ne.symm hj), ?_⟩
  intro u hu k hkt hka hky
  rw [List.getElem?_set_eq hlt] at hu
  have hu' := Option.some.inj hu
  subst hu'
  have holdD : (bs[i]?).getD ⟨[]⟩ = old := by rw [hold]; rfl
  rw [holdD]
  refine spread_get_of_not_hasKey old _ k ?_
  simp only [Obj.hasKey, hasKeyL, Bool.or_eq_false_iff, decide_eq_false_iff_not]
  exact ⟨fun h => hkt h.symm, fun h => hka h.symm, fun h => hky h.symm, trivial⟩

theorem C10_put_frame_witness :
    (putBook extraState "1" fullBody).1[1]? = extraState[1]? :=
  (C10_put_frame extraState "1" fullBody 0 patchedSeed1 (by decide) (by decide)
    (by decide) (by decide) (by decide)).2.1 1 (by decide)

lemma filter_length_of_mem_nodup (v : Value) :
    ∀ bs : List Obj, (bs.map idOf).Nodup → ∀ b ∈ bs, idOf b = v →
      (bs.filter (fun x => !decide (x.get "id" = v))).length + 1 = bs.length := by
  intro bs
  induction bs with
  | nil => intro _ b hb; simp at hb
  | cons x xs ih =>
    intro hnd b hb hbv
    rw [List.map_cons, List.nodup_cons] at hnd
    rw [List.filter_cons]
    rcases List.mem_cons.mp hb with rfl | hb'
    · have hcond : (!decide (b.get "id" = v)) = false := by
        rw [show b.get "id" = v from hbv]
        simp
      rw [hcond]
      simp only [Bool.false_eq_true, if_false]
      have hall : ∀ y ∈ xs, (!decide (y.get "id" = v)) = true := by
        intro y hy
        have hne : idOf y ≠ v := by
          intro he
          have hm : idOf y ∈ List.map idOf xs := List.mem_map_of_mem idOf hy
          rw [he, ← hbv] at hm
          exact hnd.1 hm
        simpa using hne
      rw [List.filter_eq_self.mpr hall, List.length_cons]
    · have hxv : (!decide (x.get "id" = v)) = true := by
        have hne : idOf x ≠ v := by
          intro he
          have hm : idOf b ∈ List.map idOf xs := List.mem_map_of_mem idOf hb'
          rw [hbv, ← he] at hm
          exact hnd.1 hm
        simpa using hne
      rw [hxv]
      simp only [if_true]
      rw [List.length_cons, List.length_cons]
      have := ih hnd.2 b hb' hbv
      omega

/-- Claim C5: delete removes from the collection exactly the records whose
id equals the given id, keeping the remaining records in order; it answers
200/"success" exactly when the length decreased and 404/"fail" when the
length is unchanged; with pairwise-distinct ids, deleting a present id
shrinks the length by exactly one and a subsequent get on that id answers
NotFound. -/
theorem C5_delete (bs : List Obj) (id : String) :
    (∀ b ∈ (deleteBook bs id).1, b.get "id" ≠ Value.str id)
    ∧ (deleteBook bs id).1.Sublist bs
    ∧ (∀ b ∈ bs, b.get "id" ≠ Value.str id → b ∈ (deleteBook bs id).1)
    ∧ ((deleteBook bs id).2 = ⟨200, "success",
          s!"Book with id {id} deleted successfully", none⟩
        ↔ (deleteBook bs id).1.length < bs.length)
    ∧ ((deleteBook bs id).1.length = bs.length →
        (deleteBook bs id).2 = ⟨404, "fail", s!"Book with id {id} not found", none⟩)
    ∧ ((bs.map idOf).Nodup → ∀ b ∈ bs, b.get "id" = Value.str id →
        (deleteBook bs id).1.length + 1 = bs.length
        ∧ (getBook (deleteBook bs id).1 id).2
            = ⟨404, "fail", s!"Book with id {id} not found", none⟩) := by
  refine ⟨?_, ?_, ?_, ?_, ?_, ?_⟩
  · intro b hb
    rw [deleteBook_fst] at hb
    have hb2 := (List.mem_filter.mp hb).2
    simpa using hb2
  · rw [deleteBook_fst]
    exact List.filter_sublist bs
  · intro b hb hne
    rw [deleteBook_fst]
    exact List.mem_filter.mpr ⟨hb, by simpa using hne⟩
  · rw [deleteBook_fst]
    by_cases hlen : (bs.filter (fun b => !decide (b.get "id" = Value.str id))).length
        < bs.length
    · exact iff_of_true (deleteBook_success bs id hlen) hlen
    · refine iff_of_false ?_ hlen
      rw [deleteBook_fail bs id hlen]
      simp
  · intro h
    rw [deleteBook_fst] at h
    exact deleteBook_fail bs id (by omega)
  · intro hnd b hb hbid
    have hlen := filter_length_of_mem_nodup (Value.str id) bs hnd b hb hbid
    constructor
    · rw [deleteBook_fst]
      exact hlen
    · have hfind : findBookById (deleteBook bs id).1 id = none := by
        rw [deleteBook_fst, findBookById, List.find?_eq_none]
        intro x hx
        have hx2 := (List.mem_filter.mp hx).2
        simpa using hx2
      rw [getBook_notFound _ id hfind]

theorem C5_delete_witness :
    (deleteBook seedBooks "1").1.length + 1 = seedBooks.length
    ∧ (getBook (deleteBook seedBooks "1").1 "1").2
        = ⟨404, "fail", "Book with id 1 not found", none⟩ := by
  have h := (C5_delete seedBooks "1").2.2.2.2.2 (by decide)
    (mkBook "1" "The Lord of the Rings" "J.R.R. Tolkien" 1954) (by decide) (by decide)
  exact ⟨h.1, h.2.trans (by decide)⟩
